import Mathlib

/-!
Shallow embedding of the document-facade core of this repository: the
`State` facade of `tfsdk/state.go`, together with the interfaces it
consumes (attribute paths, diagnostics, the typed value tree with its
walk and transform primitives, the schema, the attribute type system
and the reflective marshaling engine).  The facade itself is translated
line by line from `tfsdk/state.go`; the collaborators that are not part
of the visible source are modelled from the specification and are
marked as such in their doc comments.  The execution context argument
threaded through the Go code only carries cancellation and is dropped;
the operations here are pure state transformers.
-/

/-- Severity of a diagnostic: the wire protocol knows errors and warnings. -/
inductive Severity where
  | error
  | warning
deriving DecidableEq, Repr

/-- Modelled from the spec: one step of an attribute path (attribute name,
map key, or list index). -/
inductive PathStep where
  | attributeName (name : String)
  | elementKeyString (key : String)
  | elementKeyInt (index : Int)
deriving DecidableEq, Repr

/-- Modelled from the spec: an attribute path is an immutable ordered
sequence of steps; two paths are equal iff their step sequences are equal. -/
abbrev AttrPath := List PathStep

/-- Modelled from the spec: a diagnostic carries a severity, a short
summary, a long detail, and an optional attribute path. -/
structure Diagnostic where
  severity : Severity
  summary : String
  detail : String
  path : Option AttrPath
deriving DecidableEq, Repr

/-- Diagnostics are an ordered, append-only collection of diagnostics. -/
abbrev Diagnostics := List Diagnostic

/-- Decide whether a severity is the error severity. -/
def Severity.isError : Severity → Bool
  | .error => true
  | .warning => false

/-- Modelled from the spec: `HasError` is true when the collection holds at
least one error-severity diagnostic. -/
def Diagnostics.hasError (ds : Diagnostics) : Bool :=
  ds.any fun d => Severity.isError d.severity

/-- Mirror of `diag.NewErrorDiagnostic`: an error diagnostic without a path. -/
def newErrorDiagnostic (summary detail : String) : Diagnostic :=
  ⟨Severity.error, summary, detail, none⟩

/-- Mirror of `diag.NewAttributeErrorDiagnostic`: an error diagnostic
attributed to a path. -/
def newAttributeErrorDiagnostic (path : AttrPath) (summary detail : String) : Diagnostic :=
  ⟨Severity.error, summary, detail, some path⟩

/-- Mirror of `diag.NewAttributeWarningDiagnostic`: a warning diagnostic
attributed to a path. -/
def newAttributeWarningDiagnostic (path : AttrPath) (summary detail : String) : Diagnostic :=
  ⟨Severity.warning, summary, detail, some path⟩

/-- Modelled from the spec: the wire-level type of a value tree node. -/
inductive TfType where
  | string
  | bool
  | number
  | object (attrTypes : List (String × TfType))

/-- Modelled from the spec: a typed value tree node is null, unknown, or a
known primitive or composite value; composite nodes hold named children. -/
inductive TfValue where
  | null (ty : TfType)
  | unknown (ty : TfType)
  | str (s : String)
  | boolean (b : Bool)
  | num (n : Int)
  | obj (ty : TfType) (fields : List (String × TfValue))

/-- Mirror of `tftypes.Value.IsNull`. -/
def TfValue.isNull : TfValue → Bool
  | .null _ => true
  | _ => false

/-- Mirror of `tftypes.NewValue`: a nil payload produces the null value of
the given type; a concrete payload is the value itself (our wire values
already carry their own typing). -/
def NewValue (ty : TfType) : Option TfValue → TfValue
  | none => TfValue.null ty
  | some v => v

/-- Look up a named field of a composite node; first match wins. -/
def lookupField (key : String) : List (String × TfValue) → Option TfValue
  | [] => none
  | (n, c) :: rest => if n = key then some c else lookupField key rest

/-- Replace the first field of the given name, leaving the rest untouched. -/
def setField (key : String) (nv : TfValue) : List (String × TfValue) → List (String × TfValue)
  | [] => []
  | (n, c) :: rest => if n = key then (n, nv) :: rest else (n, c) :: setField key nv rest

/-- Modelled from the spec: apply one path step to a node; the step must
match the shape of the node at that depth. -/
def TfValue.step : TfValue → PathStep → Option TfValue
  | .obj _ fields, .attributeName n => lookupField n fields
  | _, _ => none

/-- Replace the child selected by one path step, leaving siblings in place. -/
def TfValue.replaceStep : TfValue → PathStep → TfValue → TfValue
  | .obj ty fields, .attributeName n, nv => .obj ty (setField n nv fields)
  | v, _, _ => v

/-- Modelled from the spec: `walk` descends step by step and returns the
node at the final step; on failure it reports the trailing steps that
could not be consumed. -/
def walkPath : TfValue → AttrPath → Except AttrPath TfValue
  | v, [] => .ok v
  | v, st :: rest =>
    match TfValue.step v st with
    | some child => walkPath child rest
    | none => .error (st :: rest)

/-- Render one path step for error messages. -/
def stepToString : PathStep → String
  | .attributeName n => "AttributeName(\"" ++ n ++ "\")"
  | .elementKeyString k => "ElementKeyString(\"" ++ k ++ "\")"
  | .elementKeyInt i => "ElementKeyInt(" ++ toString i ++ ")"

/-- Render the trailing steps of a failed walk for error messages. -/
def pathRemainsMessage (remaining : AttrPath) : String :=
  String.intercalate "." (remaining.map stepToString) ++
    " still remains in the path: could not apply the next step to the value"

/-- Modelled from the spec: a typed host-side value object as produced by
the marshaling engine; `wire` is the result of its `ToTerraformValue`
conversion back to wire form, and `tag` records which attribute type
created it. -/
structure AttrValue where
  wire : Except String TfValue
  tag : String

/-- Modelled from the spec: an attribute type converts wire values to host
values, reports its own wire shape, and optionally validates a wire value
against domain rules before conversion. -/
structure AttrType where
  terraformType : TfType
  valueFromTerraform : TfValue → Except String AttrValue
  validate : Option (TfValue → AttrPath → Diagnostics)

mutual
/-- Modelled from the spec: a schema maps top-level attribute names to
attribute descriptors. -/
inductive Schema where
  | mk (attributes : List (String × Attribute)) : Schema
/-- Modelled from the spec: an attribute descriptor holds a type, the
required/optional/computed flags, and, for nested attributes, a child
schema. -/
inductive Attribute where
  | mk (type : AttrType) (required optional computed : Bool)
       (nested : Option Schema) : Attribute
end

/-- Attribute list of a schema. -/
def Schema.attributes : Schema → List (String × Attribute)
  | .mk a => a

/-- Declared type of an attribute. -/
def Attribute.type : Attribute → AttrType
  | .mk t _ _ _ _ => t

/-- Child schema of a nested attribute. -/
def Attribute.nested : Attribute → Option Schema
  | .mk _ _ _ _ n => n

/-- Look up an attribute descriptor by name; first match wins. -/
def lookupAttr (key : String) : List (String × Attribute) → Option Attribute
  | [] => none
  | (n, a) :: rest => if n = key then some a else lookupAttr key rest

/-- Modelled from the spec: `Schema.AttributeTypeAtPath` resolves the
declared attribute type at a path, descending into child schemas for
nested attributes, and fails when the path does not match the schema. -/
def Schema.attributeTypeAtPath (s : Schema) (path : AttrPath) : Except String AttrType :=
  match path with
  | [] => .error "got unexpected type tfsdk.Schema"
  | PathStep.attributeName n :: rest =>
    match lookupAttr n (Schema.attributes s) with
    | none => .error ("could not find attribute \"" ++ n ++ "\" in schema")
    | some a =>
      match rest with
      | [] => .ok (Attribute.type a)
      | _ :: _ =>
        match Attribute.nested a with
        | some child => Schema.attributeTypeAtPath child rest
        | none => .error ("attribute \"" ++ n ++ "\" has no nested schema to descend into")
  | _ :: _ => .error "unexpected path step kind at the top of a schema"

/-- Modelled from the spec: `Schema.TerraformType` is the object type built
from the declared types of the top-level attributes. -/
def Schema.terraformType (s : Schema) : TfType :=
  TfType.object ((Schema.attributes s).map fun p => (p.1, (Attribute.type p.2).terraformType))

/-- Modelled from the spec: `Schema.AttributeType` is the whole-document
attribute type: an object-kinded attribute type whose host values wrap the
wire document unchanged. -/
def Schema.attributeType (s : Schema) : AttrType :=
  { terraformType := Schema.terraformType s
    valueFromTerraform := fun v => .ok { wire := .ok v, tag := "ObjectType" }
    validate := none }

/-- Modelled from the spec: a host-language value handed to the facade.  A
nil interface is distinct from a non-nil interface wrapping a typed nil
pointer, and from an ordinary concrete value. -/
inductive HostValue where
  | nilInterface
  | typedNil (goType : String)
  | goValue (description : String)
deriving DecidableEq, Repr

/-- Modelled from the spec: the signature of the marshaling engine
direction `FromValue`: given a target attribute type, a host value and the
current path, produce a host-side typed value and diagnostics for every
mismatch.  On an error-severity outcome the returned value is unused. -/
abbrev FromValueFn := AttrType → HostValue → AttrPath → AttrValue × Diagnostics

/-- Modelled from the spec: the callback handed to the tree transform; it
receives the current path, the current node, and the diagnostics collection
it closes over, and returns the replacement node, the updated collection,
and an optional error. -/
abbrev TransformFn := AttrPath → TfValue → Diagnostics → TfValue × Diagnostics × Option String

/-- Modelled from the spec: the shape of the tree transform primitive the
facade calls: tree, target path, callback, initial diagnostics in, and the
new tree, final diagnostics and optional error out. -/
abbrev TransformImpl := TfValue → AttrPath → TransformFn → Diagnostics → TfValue × Diagnostics × Option String

/-- Modelled from the spec: the transform descends identically to `walk`,
applies the callback at every node along the way (children before their
parent), leaves nodes off the path untouched, and fails with a path error
when a step cannot be applied. -/
def tfTransformAux (fn : TransformFn) (pre : AttrPath) (v : TfValue) (target : AttrPath)
    (acc : Diagnostics) : TfValue × Diagnostics × Option String :=
  match target with
  | [] => fn pre v acc
  | st :: rest =>
    match TfValue.step v st with
    | none => (v, acc, some (pathRemainsMessage (st :: rest)))
    | some child =>
      match tfTransformAux fn (pre ++ [st]) child rest acc with
      | (_, acc2, some e) => (v, acc2, some e)
      | (child2, acc2, none) => fn pre (TfValue.replaceStep v st child2) acc2

/-- Modelled from the spec: the tree transform primitive, started at the
root with an empty current path. -/
def tfTransform : TransformImpl := fun v target fn acc => tfTransformAux fn [] v target acc

/-- Mirror of `State`: a document facade pairing one typed value tree with
one schema. -/
structure State where
  Raw : TfValue
  schema : Schema

/-- Detail prologue used by read-side diagnostics in `tfsdk/state.go`. -/
def readErrorDetail (msg : String) : String :=
  "An unexpected error was encountered trying to read an attribute from the state. This is always an error in the provider. Please report the following to the provider developer:\n\n" ++ msg

/-- Detail prologue used by attribute write diagnostics in `tfsdk/state.go`. -/
def writeAttrErrorDetail (msg : String) : String :=
  "An unexpected error was encountered trying to write an attribute to the state. This is always an error in the provider. Please report the following to the provider developer:\n\n" ++ msg

/-- Detail prologue used by whole-state write diagnostics in `tfsdk/state.go`. -/
def writeStateErrorDetail (msg : String) : String :=
  "An unexpected error was encountered trying to write the state. This is always an error in the provider. Please report the following to the provider developer:\n\n" ++ msg

/-- Mirror of `State.terraformValueAtPath`: walk the raw tree and wrap a
walk failure into an error message naming the remaining steps. -/
def State.terraformValueAtPath (s : State) (path : AttrPath) : Except String TfValue :=
  match walkPath s.Raw path with
  | .error remaining => .error (pathRemainsMessage remaining)
  | .ok v => .ok v

/-- Diagnostics contributed by the optional validation hook of an attribute
type: the validator runs when the type implements one, and contributes
nothing otherwise. -/
def validateDiags (attrType : AttrType) (tfValue : TfValue) (path : AttrPath) : Diagnostics :=
  match attrType.validate with
  | some validate => validate tfValue path
  | none => []

/-- Mirror of `State.getAttributeValue`: resolve the schema type at the
path, short-circuit a root-null tree to no value and no diagnostics, walk
the tree, validate the wire value when the type validates, then convert. -/
def State.getAttributeValue (s : State) (path : AttrPath) : Option AttrValue × Diagnostics :=
  match Schema.attributeTypeAtPath s.schema path with
  | .error e =>
    (none, [newAttributeErrorDiagnostic path "State Read Error"
      (readErrorDetail ("error getting attribute type in schema: " ++ e))])
  | .ok attrType =>
    if TfValue.isNull s.Raw then (none, [])
    else
      match State.terraformValueAtPath s path with
      | .error e =>
        (none, [newAttributeErrorDiagnostic path "State Read Error" (readErrorDetail e)])
      | .ok tfValue =>
        let diags : Diagnostics := validateDiags attrType tfValue path
        if Diagnostics.hasError diags then (none, diags)
        else
          match attrType.valueFromTerraform tfValue with
          | .error e =>
            (none, diags ++ [newAttributeErrorDiagnostic path "State Read Error" (readErrorDetail e)])
          | .ok attrValue => (some attrValue, diags)

/-- Mirror of the re-attribution loop of `State.GetAttribute`: diagnostics
produced by the value conversion step are re-created as attribute
diagnostics on the requested path, preserving severity, summary and detail. -/
def reattributeDiag (path : AttrPath) (d : Diagnostic) : Diagnostic :=
  match d.severity with
  | Severity.error => newAttributeErrorDiagnostic path d.summary d.detail
  | Severity.warning => newAttributeWarningDiagnostic path d.summary d.detail

/-- Mirror of `State.GetAttribute`, parametric over the `ValueAs` step of
the marshaling engine (modelled from the spec: it populates the target
from the host-side value and reports diagnostics without path context). -/
def State.getAttribute {τ : Type} (valueAs : AttrValue → τ → τ × Diagnostics)
    (s : State) (path : AttrPath) (target : τ) : τ × Diagnostics :=
  let r := State.getAttributeValue s path
  if Diagnostics.hasError r.2 then (target, r.2)
  else
    match r.1 with
    | none =>
      (target, r.2 ++ [newAttributeErrorDiagnostic path "State Read Error"
        (readErrorDetail "Missing attribute value, however no error was returned. Preventing the panic from this situation.")])
    | some av =>
      let va := valueAs av target
      (va.1, r.2 ++ va.2.map (reattributeDiag path))

/-- Diagnostic produced by `State.Set` when the whole-document value is a
nil interface; the detail directs the caller to `State.RemoveResource`. -/
def setNilDiagnostic : Diagnostic :=
  newErrorDiagnostic "State Read Error"
    (writeStateErrorDetail "cannot set nil as entire state; to remove a resource from state, call State.RemoveResource, instead")

/-- Mirror of `State.Set`, parametric over the marshaling engine direction
`FromValue`: reject a nil whole-document value, otherwise marshal against
the whole-schema type, convert to wire form, and replace the root. -/
def State.set (fromValue : FromValueFn) (s : State) (val : HostValue) : State × Diagnostics :=
  match val with
  | HostValue.nilInterface => (s, [setNilDiagnostic])
  | _ =>
    let r := fromValue (Schema.attributeType s.schema) val []
    if Diagnostics.hasError r.2 then (s, r.2)
    else
      match r.1.wire with
      | .error e =>
        (s, r.2 ++ [newErrorDiagnostic "State Write Error"
          (writeStateErrorDetail ("error running ToTerraformValue on state: " ++ e))])
      | .ok newStateVal =>
        ({ s with Raw := NewValue (Schema.attributeType s.schema).terraformType (some newStateVal) }, r.2)

/-- Mirror of the `transformFunc` closure of `State.SetAttribute`: at the
requested path it rebuilds the wire value, re-runs the attribute type
validator when present, keeps the old node when the accumulated
diagnostics now hold an error, and otherwise installs the new value;
every other node is returned unchanged. -/
def setAttributeTransformFn (attrType : AttrType) (path : AttrPath) (newTfVal : TfValue) : TransformFn :=
  fun p v acc =>
    if p = path then
      let tfVal := NewValue attrType.terraformType (some newTfVal)
      match attrType.validate with
      | some validate =>
        let acc2 := acc ++ validate tfVal path
        if Diagnostics.hasError acc2 then (v, acc2, none)
        else (tfVal, acc2, none)
      | none => (tfVal, acc, none)
    else (v, acc, none)

/-- Mirror of `State.SetAttribute`, parametric over the transform primitive
and the marshaling engine: resolve the schema type, marshal the host value,
convert it to wire form, then transform the tree; the transform result is
assigned to `Raw` before the transform error, if any, is reported. -/
def State.setAttributeWith (transform : TransformImpl) (fromValue : FromValueFn)
    (s : State) (path : AttrPath) (val : HostValue) : State × Diagnostics :=
  match Schema.attributeTypeAtPath s.schema path with
  | .error e =>
    (s, [newAttributeErrorDiagnostic path "State Write Error"
      (writeAttrErrorDetail ("error getting attribute type in schema: " ++ e))])
  | .ok attrType =>
    let r := fromValue attrType val path
    if Diagnostics.hasError r.2 then (s, r.2)
    else
      match r.1.wire with
      | .error e =>
        (s, r.2 ++ [newAttributeErrorDiagnostic path "State Write Error"
          (writeAttrErrorDetail ("error running ToTerraformValue on new state value: " ++ e))])
      | .ok newTfVal =>
        let t := transform s.Raw path (setAttributeTransformFn attrType path newTfVal) r.2
        let s2 := { s with Raw := t.1 }
        match t.2.2 with
        | some e =>
          (s2, t.2.1 ++ [newAttributeErrorDiagnostic path "State Write Error" (writeAttrErrorDetail e)])
        | none => (s2, t.2.1)

/-- Mirror of `State.SetAttribute` with the concrete transform primitive. -/
def State.setAttribute (fromValue : FromValueFn) (s : State) (path : AttrPath)
    (val : HostValue) : State × Diagnostics :=
  State.setAttributeWith tfTransform fromValue s path val

/-- Mirror of `State.RemoveResource`: replace the entire tree with the null
value of the schema level type. -/
def State.removeResource (s : State) : State :=
  { s with Raw := NewValue (Schema.terraformType s.schema) none }

/-! Helper notions and lemmas about walking, replacing and transforming. -/

/-- Decide whether the path `q` extends the path `p` (that is, `p` is an
initial segment of `q`). -/
def pathUnder : AttrPath → AttrPath → Bool
  | _, [] => true
  | [], _ :: _ => false
  | q1 :: qs, p1 :: ps => if q1 = p1 then pathUnder qs ps else false

/-- Functional replacement of the node at a path, leaving every node off
the path untouched; an inapplicable step leaves the tree unchanged. -/
def setAtPath : TfValue → AttrPath → TfValue → TfValue
  | _, [], nv => nv
  | v, st :: rest, nv =>
    match TfValue.step v st with
    | none => v
    | some child => TfValue.replaceStep v st (setAtPath child rest nv)

/-- Payload of the set-attribute callback at the requested path: the new
wire value and updated diagnostics, keeping the old node on a validation
error. -/
def applySetFn (attrType : AttrType) (path : AttrPath) (newTfVal : TfValue)
    (v : TfValue) (acc : Diagnostics) : TfValue × Diagnostics :=
  let tfVal := NewValue attrType.terraformType (some newTfVal)
  match attrType.validate with
  | some validate =>
    let acc2 := acc ++ validate tfVal path
    if Diagnostics.hasError acc2 then (v, acc2)
    else (tfVal, acc2)
  | none => (tfVal, acc)

/-! Concrete instances used to evaluate the operations on closed inputs,
mirroring the fixtures of `tfsdk/config_test.go`. -/

/-- Demo attribute type mirroring `types.StringType`. -/
def stringAttrType : AttrType :=
  { terraformType := TfType.string
    valueFromTerraform := fun v => .ok { wire := .ok v, tag := "StringType" }
    validate := none }

/-- Demo error diagnostic mirroring `testtypes.TestErrorDiagnostic`. -/
def testErrorDiagnostic (path : AttrPath) : Diagnostic :=
  newAttributeErrorDiagnostic path "Error Diagnostic" "This is an error."

/-- Demo warning diagnostic mirroring `testtypes.TestWarningDiagnostic`. -/
def testWarningDiagnostic (path : AttrPath) : Diagnostic :=
  newAttributeWarningDiagnostic path "Warning Diagnostic" "This is a warning."

/-- Demo attribute type mirroring `testtypes.StringTypeWithValidateError`. -/
def stringTypeWithValidateError : AttrType :=
  { stringAttrType with validate := some fun _ p => [testErrorDiagnostic p] }

/-- Demo attribute type mirroring `testtypes.StringTypeWithValidateWarning`. -/
def stringTypeWithValidateWarning : AttrType :=
  { stringAttrType with validate := some fun _ p => [testWarningDiagnostic p] }

/-- Demo schema with one required string attribute named `name`. -/
def demoSchema : Schema :=
  Schema.mk [("name", Attribute.mk stringAttrType true false false none)]

/-- Demo schema with two required string attributes `name` and `other`. -/
def demoSchema2 : Schema :=
  Schema.mk [("name", Attribute.mk stringAttrType true false false none),
             ("other", Attribute.mk stringAttrType true false false none)]

/-- Demo schema whose `name` attribute validates with an error. -/
def demoSchemaValErr : Schema :=
  Schema.mk [("name", Attribute.mk stringTypeWithValidateError true false false none)]

/-- Demo schema whose `name` attribute validates with a warning. -/
def demoSchemaValWarn : Schema :=
  Schema.mk [("name", Attribute.mk stringTypeWithValidateWarning true false false none)]

/-- Demo path addressing the `name` attribute. -/
def demoPath : AttrPath := [PathStep.attributeName "name"]

/-- Demo state holding the document with `name` set to `namevalue`. -/
def demoState : State :=
  { Raw := TfValue.obj (Schema.terraformType demoSchema) [("name", TfValue.str "namevalue")]
    schema := demoSchema }

/-- Demo state over the two-attribute schema. -/
def demoState2 : State :=
  { Raw := TfValue.obj (Schema.terraformType demoSchema2)
      [("name", TfValue.str "namevalue"), ("other", TfValue.str "othervalue")]
    schema := demoSchema2 }

/-- Demo state whose `name` attribute type validates with a warning. -/
def demoStateValWarn : State :=
  { Raw := TfValue.obj (Schema.terraformType demoSchemaValWarn) [("name", TfValue.str "namevalue")]
    schema := demoSchemaValWarn }

/-- Demo state whose `name` attribute type validates with an error. -/
def demoStateValErr : State :=
  { Raw := TfValue.obj (Schema.terraformType demoSchemaValErr) [("name", TfValue.str "namevalue")]
    schema := demoSchemaValErr }

/-- Demo `ValueAs` step that stores the host-side value into the target. -/
def storeValueAs : AttrValue → Option AttrValue → Option AttrValue × Diagnostics :=
  fun av _ => (some av, [])

/-- Demo `ValueAs` step for an incompatible boolean target: it leaves the
target untouched and reports one conversion error without path context. -/
def incompatibleValueAs : AttrValue → Bool → Bool × Diagnostics :=
  fun _ target =>
    (target, [newErrorDiagnostic "Value Conversion Error"
      "cannot unmarshal tftypes.String into a boolean target"])

/-- Demo marshaling engine producing the string value `bar`. -/
def demoFromValueBar : FromValueFn :=
  fun _ _ _ => ({ wire := .ok (TfValue.str "bar"), tag := "StringType" }, [])

/-- Probe diagnostic recording that the marshaling engine was invoked. -/
def probeDiagnostic : Diagnostic :=
  ⟨Severity.warning, "Probe", "FromValue was invoked on this value.", none⟩

/-- Probe marshaling engine: reports its invocation through a warning
diagnostic and produces a recognizable wire value. -/
def probeFromValue : FromValueFn :=
  fun _ _ _ => ({ wire := .ok (TfValue.str "probe-from-value"), tag := "probe" }, [probeDiagnostic])

/-- Adversarial transform primitive that fails while returning a tree
unrelated to its input. -/
def corruptTransform : TransformImpl :=
  fun _ _ _ acc => (TfValue.str "corrupted", acc, some "transform failed")

theorem hasError_append (a b : Diagnostics) :
    Diagnostics.hasError (a ++ b) = (Diagnostics.hasError a || Diagnostics.hasError b) := by
  simp [Diagnostics.hasError, List.any_append]

theorem setAttributeTransformFn_eq (attrType : AttrType) (path : AttrPath) (newTfVal : TfValue)
    (p : AttrPath) (v : TfValue) (acc : Diagnostics) :
    setAttributeTransformFn attrType path newTfVal p v acc =
      if p = path then
        ((applySetFn attrType path newTfVal v acc).1, (applySetFn attrType path newTfVal v acc).2, none)
      else (v, acc, none) := by
  unfold setAttributeTransformFn applySetFn
  by_cases h : p = path
  · simp only [h, if_true]
    cases attrType.validate with
    | none => simp
    | some validate => simp only; split <;> simp
  · simp [h]

theorem lookupField_setField_self (key : String) (nv : TfValue) (fields : List (String × TfValue))
    (c : TfValue) (h : lookupField key fields = some c) :
    lookupField key (setField key nv fields) = some nv := by
  induction fields with
  | nil => simp [lookupField] at h
  | cons hd tl ih =>
    obtain ⟨n, cv⟩ := hd
    by_cases hn : n = key
    · simp [lookupField, setField, hn]
    · simp only [lookupField, setField, hn, if_false] at h ⊢
      exact ih h

theorem lookupField_setField_ne (key m : String) (hne : m ≠ key) (nv : TfValue)
    (fields : List (String × TfValue)) :
    lookupField m (setField key nv fields) = lookupField m fields := by
  induction fields with
  | nil => simp [setField]
  | cons hd tl ih =>
    obtain ⟨n, cv⟩ := hd
    by_cases hn : n = key
    · subst hn
      have hnm : n ≠ m := fun he => hne he.symm
      simp [lookupField, setField, hnm]
    · simp only [setField, hn, if_false, lookupField]
      by_cases hm : n = m
      · simp [hm]
      · simp [hm, ih]

theorem step_replaceStep_self (v : TfValue) (st : PathStep) (c nv : TfValue)
    (h : TfValue.step v st = some c) :
    TfValue.step (TfValue.replaceStep v st nv) st = some nv := by
  cases v <;> cases st <;> simp [TfValue.step, TfValue.replaceStep] at h ⊢
  exact lookupField_setField_self _ _ _ _ h

theorem step_replaceStep_ne (v : TfValue) (st st2 : PathStep) (nv : TfValue)
    (hne : st2 ≠ st) :
    TfValue.step (TfValue.replaceStep v st nv) st2 = TfValue.step v st2 := by
  cases v with
  | obj ty fields =>
    cases st with
    | attributeName n =>
      cases st2 with
      | attributeName m =>
        have hmn : m ≠ n := fun he => hne (by rw [he])
        simp [TfValue.step, TfValue.replaceStep, lookupField_setField_ne n m hmn]
      | elementKeyString k => simp [TfValue.step, TfValue.replaceStep]
      | elementKeyInt i => simp [TfValue.step, TfValue.replaceStep]
    | elementKeyString k => simp [TfValue.replaceStep]
    | elementKeyInt i => simp [TfValue.replaceStep]
  | null ty => simp [TfValue.replaceStep]
  | unknown ty => simp [TfValue.replaceStep]
  | str s => simp [TfValue.replaceStep]
  | boolean b => simp [TfValue.replaceStep]
  | num n => simp [TfValue.replaceStep]

theorem walkPath_setAtPath_self (p : AttrPath) : ∀ (v v0 nv : TfValue),
    walkPath v p = .ok v0 → walkPath (setAtPath v p nv) p = .ok nv := by
  induction p with
  | nil => intro v v0 nv h; simp [walkPath, setAtPath]
  | cons st rest ih =>
    intro v v0 nv h
    cases hc : TfValue.step v st with
    | none => simp [walkPath, hc] at h
    | some child =>
      have h2 : walkPath child rest = .ok v0 := by simpa [walkPath, hc] using h
      simp only [setAtPath, hc, walkPath,
        step_replaceStep_self v st child (setAtPath child rest nv) hc]
      exact ih child v0 nv h2

theorem walkPath_setAtPath_disjoint (p : AttrPath) : ∀ (q : AttrPath) (v v0 nv : TfValue),
    walkPath v p = .ok v0 → pathUnder q p = false → pathUnder p q = false →
    walkPath (setAtPath v p nv) q = walkPath v q := by
  induction p with
  | nil => intro q v v0 nv h hq hp; simp [pathUnder] at hq
  | cons st rest ih =>
    intro q v v0 nv h hq hp
    cases hc : TfValue.step v st with
    | none => simp [walkPath, hc] at h
    | some child =>
      have h2 : walkPath child rest = .ok v0 := by simpa [walkPath, hc] using h
      cases q with
      | nil => simp [pathUnder] at hp
      | cons st2 qrest =>
        by_cases hst : st2 = st
        · subst hst
          simp only [pathUnder, if_true, reduceIte] at hq hp
          simp only [setAtPath, hc, walkPath,
            step_replaceStep_self v st2 child (setAtPath child rest nv) hc]
          exact ih qrest child v0 nv h2 hq hp
        · simp only [setAtPath, hc, walkPath, step_replaceStep_ne v st st2 _ hst]

theorem setAtPath_isNull (v : TfValue) (st : PathStep) (rest : AttrPath) (c nv : TfValue)
    (h : TfValue.step v st = some c) :
    TfValue.isNull (setAtPath v (st :: rest) nv) = false := by
  cases v <;> cases st <;>
    simp_all [setAtPath, TfValue.step, TfValue.replaceStep, TfValue.isNull]

theorem tfTransformAux_hit (attrType : AttrType) (target : AttrPath) (w : TfValue)
    (rest : AttrPath) : ∀ (pre : AttrPath) (v v0 : TfValue) (acc : Diagnostics),
    pre ++ rest = target →
    walkPath v rest = .ok v0 →
    tfTransformAux (setAttributeTransformFn attrType target w) pre v rest acc =
      (setAtPath v rest (applySetFn attrType target w v0 acc).1,
       (applySetFn attrType target w v0 acc).2, none) := by
  induction rest with
  | nil =>
    intro pre v v0 acc hpre hwalk
    have hv : v = v0 := by simpa [walkPath] using hwalk
    subst hv
    have hpt : pre = target := by simpa using hpre
    simp [tfTransformAux, setAtPath, setAttributeTransformFn_eq, hpt]
  | cons st rest2 ih =>
    intro pre v v0 acc hpre hwalk
    cases hc : TfValue.step v st with
    | none => simp [walkPath, hc] at hwalk
    | some child =>
      have h2 : walkPath child rest2 = .ok v0 := by simpa [walkPath, hc] using hwalk
      have hpre2 : (pre ++ [st]) ++ rest2 = target := by simpa [List.append_assoc] using hpre
      have hrec := ih (pre ++ [st]) child v0 acc hpre2 h2
      have hne : pre ≠ target := by
        intro he
        rw [← hpre] at he
        have := congrArg List.length he
        simp at this
      simp [tfTransformAux, hc, hrec, setAttributeTransformFn_eq, hne, setAtPath]

theorem applySetFn_ok (attrType : AttrType) (path : AttrPath) (w v0 : TfValue) (acc : Diagnostics)
    (haccOk : Diagnostics.hasError acc = false)
    (hvOk : Diagnostics.hasError
      (validateDiags attrType (NewValue attrType.terraformType (some w)) path) = false) :
    applySetFn attrType path w v0 acc =
      (NewValue attrType.terraformType (some w),
       acc ++ validateDiags attrType (NewValue attrType.terraformType (some w)) path) := by
  cases hv : attrType.validate with
  | none => simp [applySetFn, validateDiags, hv]
  | some f =>
    simp only [validateDiags, hv] at hvOk
    have : Diagnostics.hasError (acc ++ f (NewValue attrType.terraformType (some w)) path) = false := by
      simp [hasError_append, haccOk, hvOk]
    simp [applySetFn, validateDiags, hv, this]

theorem applySetFn_bad (attrType : AttrType) (path : AttrPath) (w v0 : TfValue) (acc : Diagnostics)
    (f : TfValue → AttrPath → Diagnostics)
    (hv : attrType.validate = some f)
    (hbad : Diagnostics.hasError
      (acc ++ f (NewValue attrType.terraformType (some w)) path) = true) :
    applySetFn attrType path w v0 acc =
      (v0, acc ++ f (NewValue attrType.terraformType (some w)) path) := by
  simp [applySetFn, hv, hbad]

theorem setAttribute_eq (fromValue : FromValueFn) (s : State) (path : AttrPath) (val : HostValue)
    (attrType : AttrType) (av : AttrValue) (fvDiags : Diagnostics) (w v0 : TfValue)
    (hty : Schema.attributeTypeAtPath s.schema path = .ok attrType)
    (hfv : fromValue attrType val path = (av, fvDiags))
    (hfvOk : Diagnostics.hasError fvDiags = false)
    (hw : av.wire = .ok w)
    (hwalk : walkPath s.Raw path = .ok v0) :
    State.setAttribute fromValue s path val =
      ({ s with Raw := setAtPath s.Raw path (applySetFn attrType path w v0 fvDiags).1 },
       (applySetFn attrType path w v0 fvDiags).2) := by
  have htr := tfTransformAux_hit attrType path w path [] s.Raw v0 fvDiags (by simp) hwalk
  simp [State.setAttribute, State.setAttributeWith, hty, hfv, hfvOk, hw, tfTransform, htr]

/-- C1: evaluation of the code at the failing input.  After
`RemoveResource`, `GetAttribute` at the schema-valid path `name` populates
no value but reports one error-severity diagnostic (the
missing-attribute-value guard of `State.GetAttribute`), where the claim
states that a root-null tree short-circuits to no value and no
diagnostics. -/
theorem C1_removeResource_getAttribute_reports_error :
    State.getAttribute storeValueAs (State.removeResource demoState) demoPath none =
      (none, [newAttributeErrorDiagnostic demoPath "State Read Error"
        (readErrorDetail "Missing attribute value, however no error was returned. Preventing the panic from this situation.")]) ∧
    Diagnostics.hasError
      (State.getAttribute storeValueAs (State.removeResource demoState) demoPath none).2 = true :=
  ⟨rfl, rfl⟩

/-- C2: for every marshaling engine and every prior tree, setting a nil
whole-document value yields exactly the one error-severity rejection
diagnostic, whose detail directs the caller to `State.RemoveResource`, and
leaves the facade, in particular its `Raw` tree, exactly as it was. -/
theorem C2_set_nil_rejected (fromValue : FromValueFn) (s : State) :
    State.set fromValue s HostValue.nilInterface = (s, [setNilDiagnostic]) ∧
    setNilDiagnostic.severity = Severity.error ∧
    setNilDiagnostic.detail = writeStateErrorDetail
      "cannot set nil as entire state; to remove a resource from state, call State.RemoveResource, instead" :=
  ⟨rfl, rfl, rfl⟩

/-- C8: from any state, `RemoveResource` replaces the entire tree with the
fully null value of the declared top-level type of the schema; the result
is root-null, and the operation returns no diagnostics at all (its result
type carries none). -/
theorem C8_removeResource_installs_null_tree (s : State) :
    State.removeResource s = { s with Raw := TfValue.null (Schema.terraformType s.schema) } ∧
    TfValue.isNull (State.removeResource s).Raw = true :=
  ⟨rfl, rfl⟩

/-- C9: the nil rejection of `Set` fires only for a nil interface value: a
non-nil interface wrapping a typed nil pointer is passed on to the
marshaling engine (whose probe diagnostic and wire value show up in the
result) and the nil-state rejection diagnostic is not produced, while the
nil interface still is rejected. -/
theorem C9_set_typed_nil_not_rejected (s : State) (goType : String) :
    State.set probeFromValue s (HostValue.typedNil goType) =
      ({ s with Raw := TfValue.str "probe-from-value" }, [probeDiagnostic]) ∧
    probeDiagnostic ≠ setNilDiagnostic ∧
    (State.set probeFromValue s HostValue.nilInterface).2 = [setNilDiagnostic] :=
  ⟨rfl, by decide, rfl⟩

/-- C3: for every attribute type implementing a validator, the attribute
read runs the validator on the wire value before conversion.  When the
validator reports an error-severity diagnostic the conversion is skipped
and no value is produced, whatever the conversion function would do; when
the validator reports no error (for example only warnings), conversion
proceeds and its host value is returned together with the validator
diagnostics. -/
theorem C3_getAttributeValue_validate_gates_conversion
    (s : State) (path : AttrPath) (attrType : AttrType)
    (validate : TfValue → AttrPath → Diagnostics) (tfValue : TfValue)
    (hty : Schema.attributeTypeAtPath s.schema path = .ok attrType)
    (hval : attrType.validate = some validate)
    (hnn : TfValue.isNull s.Raw = false)
    (hwalk : State.terraformValueAtPath s path = .ok tfValue) :
    (Diagnostics.hasError (validate tfValue path) = true →
      State.getAttributeValue s path = (none, validate tfValue path)) ∧
    (Diagnostics.hasError (validate tfValue path) = false →
      ∀ av : AttrValue, attrType.valueFromTerraform tfValue = .ok av →
        State.getAttributeValue s path = (some av, validate tfValue path)) := by
  constructor
  · intro hbad
    simp [State.getAttributeValue, hty, hnn, hwalk, validateDiags, hval, hbad]
  · intro hok av hconv
    simp [State.getAttributeValue, hty, hnn, hwalk, validateDiags, hval, hok, hconv]

/-- C3 witness: the warning-validator string type converts `namevalue` and
returns the converted value together with exactly the one warning. -/
theorem C3_witness :
    Diagnostics.hasError [testWarningDiagnostic demoPath] = false ∧
    State.getAttributeValue demoStateValWarn demoPath =
      (some { wire := Except.ok (TfValue.str "namevalue"), tag := "StringType" },
       [testWarningDiagnostic demoPath]) := by
  have h := C3_getAttributeValue_validate_gates_conversion demoStateValWarn demoPath
    stringTypeWithValidateWarning (fun _ p => [testWarningDiagnostic p]) (TfValue.str "namevalue")
    rfl rfl rfl rfl
  exact ⟨rfl, h.2 rfl { wire := Except.ok (TfValue.str "namevalue"), tag := "StringType" } rfl⟩

/-- C4: `SetAttribute` re-runs the attribute type validator on the newly
constructed wire value inside the tree transform (its diagnostics appear
in the result), and whenever that validator reports an error-severity
diagnostic the pre-existing node at the path is left in place. -/
theorem C4_setAttribute_validate_error_keeps_old_node
    (fromValue : FromValueFn) (s : State) (path : AttrPath) (val : HostValue)
    (attrType : AttrType) (validate : TfValue → AttrPath → Diagnostics)
    (av : AttrValue) (fvDiags : Diagnostics) (w v0 : TfValue)
    (hty : Schema.attributeTypeAtPath s.schema path = .ok attrType)
    (hval : attrType.validate = some validate)
    (hfv : fromValue attrType val path = (av, fvDiags))
    (hfvOk : Diagnostics.hasError fvDiags = false)
    (hw : av.wire = .ok w)
    (hwalk : walkPath s.Raw path = .ok v0)
    (hbad : Diagnostics.hasError (validate (NewValue attrType.terraformType (some w)) path) = true) :
    walkPath (State.setAttribute fromValue s path val).1.Raw path = .ok v0 ∧
    (State.setAttribute fromValue s path val).2 =
      fvDiags ++ validate (NewValue attrType.terraformType (some w)) path ∧
    Diagnostics.hasError (State.setAttribute fromValue s path val).2 = true := by
  have heq := setAttribute_eq fromValue s path val attrType av fvDiags w v0 hty hfv hfvOk hw hwalk
  have hacc : Diagnostics.hasError
      (fvDiags ++ validate (NewValue attrType.terraformType (some w)) path) = true := by
    simp [hasError_append, hfvOk, hbad]
  have hg := applySetFn_bad attrType path w v0 fvDiags validate hval hacc
  refine ⟨?_, ?_, ?_⟩
  · rw [heq]
    simp only [hg]
    exact walkPath_setAtPath_self path s.Raw v0 v0 hwalk
  · rw [heq, hg]
  · rw [heq, hg]
    exact hacc

/-- C4 witness: setting `name` under the error-validator type leaves the
old value `namevalue` in place and surfaces the validation error. -/
theorem C4_witness :
    walkPath (State.setAttribute demoFromValueBar demoStateValErr demoPath
      (HostValue.goValue "bar")).1.Raw demoPath = .ok (TfValue.str "namevalue") ∧
    (State.setAttribute demoFromValueBar demoStateValErr demoPath
      (HostValue.goValue "bar")).2 = [testErrorDiagnostic demoPath] ∧
    Diagnostics.hasError (State.setAttribute demoFromValueBar demoStateValErr demoPath
      (HostValue.goValue "bar")).2 = true := by
  have h := C4_setAttribute_validate_error_keeps_old_node demoFromValueBar demoStateValErr
    demoPath (HostValue.goValue "bar") stringTypeWithValidateError
    (fun _ p => [testErrorDiagnostic p])
    { wire := Except.ok (TfValue.str "bar"), tag := "StringType" } []
    (TfValue.str "bar") (TfValue.str "namevalue") rfl rfl rfl rfl rfl rfl rfl
  exact ⟨h.1, by simpa using h.2.1, h.2.2⟩

/-- C5: after `SetAttribute` at a schema-valid, walkable path succeeds, the
attribute read at the same path produces exactly the host value obtained
by converting the wire form of the value just set (together with the
validator diagnostics, which carry no error), and the walk result at every
path disjoint from the written one (siblings and their descendants) is
unchanged. -/
theorem C5_setAttribute_then_getAttribute
    (fromValue : FromValueFn) (s : State) (path : AttrPath) (val : HostValue)
    (attrType : AttrType) (av av2 : AttrValue) (fvDiags : Diagnostics) (w v0 : TfValue)
    (hty : Schema.attributeTypeAtPath s.schema path = .ok attrType)
    (hfv : fromValue attrType val path = (av, fvDiags))
    (hfvOk : Diagnostics.hasError fvDiags = false)
    (hw : av.wire = .ok w)
    (hwalk : walkPath s.Raw path = .ok v0)
    (hvOk : Diagnostics.hasError
      (validateDiags attrType (NewValue attrType.terraformType (some w)) path) = false)
    (hconv : attrType.valueFromTerraform (NewValue attrType.terraformType (some w)) = .ok av2) :
    State.getAttributeValue (State.setAttribute fromValue s path val).1 path =
      (some av2, validateDiags attrType (NewValue attrType.terraformType (some w)) path) ∧
    ∀ q : AttrPath, pathUnder q path = false → pathUnder path q = false →
      walkPath (State.setAttribute fromValue s path val).1.Raw q = walkPath s.Raw q := by
  have heq := setAttribute_eq fromValue s path val attrType av fvDiags w v0 hty hfv hfvOk hw hwalk
  have hg := applySetFn_ok attrType path w v0 fvDiags hfvOk hvOk
  have hwalknew : walkPath (setAtPath s.Raw path (NewValue attrType.terraformType (some w))) path
      = .ok (NewValue attrType.terraformType (some w)) :=
    walkPath_setAtPath_self path s.Raw v0 (NewValue attrType.terraformType (some w)) hwalk
  constructor
  · rw [heq]
    simp only [hg]
    obtain ⟨st, rest, hpath⟩ : ∃ st rest, path = st :: rest := by
      cases path with
      | nil => simp [Schema.attributeTypeAtPath] at hty
      | cons st rest => exact ⟨st, rest, rfl⟩
    have hstep : ∃ c, TfValue.step s.Raw st = some c := by
      subst hpath
      cases hc : TfValue.step s.Raw st with
      | none => simp [walkPath, hc] at hwalk
      | some c => exact ⟨c, rfl⟩
    obtain ⟨c, hc⟩ := hstep
    have hnnn : TfValue.isNull
        (setAtPath s.Raw path (NewValue attrType.terraformType (some w))) = false := by
      rw [hpath]
      exact setAtPath_isNull s.Raw st rest c (NewValue attrType.terraformType (some w)) hc
    simp [State.getAttributeValue, hty, hnnn, State.terraformValueAtPath, hwalknew, hvOk, hconv]
  · intro q hq hp
    rw [heq]
    simp only [hg]
    exact walkPath_setAtPath_disjoint path q s.Raw v0
      (NewValue attrType.terraformType (some w)) hwalk hq hp

/-- C5 witness: setting `name` to `bar` in the two-attribute document makes
the read at `name` return the value just set with no diagnostics, and the
sibling `other` is unchanged. -/
theorem C5_witness :
    State.getAttributeValue (State.setAttribute demoFromValueBar demoState2 demoPath
      (HostValue.goValue "bar")).1 demoPath =
      (some { wire := Except.ok (TfValue.str "bar"), tag := "StringType" }, []) ∧
    walkPath (State.setAttribute demoFromValueBar demoState2 demoPath
      (HostValue.goValue "bar")).1.Raw [PathStep.attributeName "other"] =
      walkPath demoState2.Raw [PathStep.attributeName "other"] := by
  have h := C5_setAttribute_then_getAttribute demoFromValueBar demoState2 demoPath
    (HostValue.goValue "bar") stringAttrType
    { wire := Except.ok (TfValue.str "bar"), tag := "StringType" }
    { wire := Except.ok (TfValue.str "bar"), tag := "StringType" } []
    (TfValue.str "bar") (TfValue.str "namevalue") rfl rfl rfl rfl rfl rfl rfl
  exact ⟨h.1, h.2 [PathStep.attributeName "other"] rfl rfl⟩

/-- C6: every diagnostic produced by the value-conversion step of
`GetAttribute` is surfaced as an attribute diagnostic on the requested
path with its original severity, summary and detail; the converted target
is returned as the conversion step produced it. -/
theorem C6_getAttribute_reattributes_conversion_diags
    {τ : Type} (valueAs : AttrValue → τ → τ × Diagnostics)
    (s : State) (path : AttrPath) (target t2 : τ) (av : AttrValue) (pre vd : Diagnostics)
    (hget : State.getAttributeValue s path = (some av, pre))
    (hpre : Diagnostics.hasError pre = false)
    (hva : valueAs av target = (t2, vd)) :
    State.getAttribute valueAs s path target =
      (t2, pre ++ vd.map fun d => Diagnostic.mk d.severity d.summary d.detail (some path)) := by
  have hfun : reattributeDiag path =
      fun d => Diagnostic.mk d.severity d.summary d.detail (some path) := by
    funext d
    cases hd : d.severity <;>
      simp [reattributeDiag, hd, newAttributeErrorDiagnostic, newAttributeWarningDiagnostic]
  simp [State.getAttribute, hget, hpre, hva, hfun]

/-- C6 witness: converting the `name` string into an incompatible boolean
target yields exactly one error diagnostic referencing the requested path
and leaves the target at its zero value. -/
theorem C6_witness :
    State.getAttribute incompatibleValueAs demoState demoPath false =
      (false, [newAttributeErrorDiagnostic demoPath "Value Conversion Error"
        "cannot unmarshal tftypes.String into a boolean target"]) := by
  have h := C6_getAttribute_reattributes_conversion_diags incompatibleValueAs demoState demoPath
    false false { wire := Except.ok (TfValue.str "namevalue"), tag := "StringType" } []
    [newErrorDiagnostic "Value Conversion Error"
      "cannot unmarshal tftypes.String into a boolean target"] rfl rfl rfl
  simpa [newErrorDiagnostic, newAttributeErrorDiagnostic] using h

/-- C7: `Set` with a non-nil value is atomic over the tree: an
error-severity marshaling outcome or a failing conversion to wire form
leaves the old tree untouched, and otherwise the whole new tree replaces
the root. -/
theorem C7_set_nonnil_atomic
    (fromValue : FromValueFn) (s : State) (val : HostValue)
    (av : AttrValue) (d : Diagnostics)
    (hnn : val ≠ HostValue.nilInterface)
    (hfv : fromValue (Schema.attributeType s.schema) val [] = (av, d)) :
    (Diagnostics.hasError d = true → State.set fromValue s val = (s, d)) ∧
    (∀ e : String, Diagnostics.hasError d = false → av.wire = .error e →
      (State.set fromValue s val).1 = s) ∧
    (∀ w : TfValue, Diagnostics.hasError d = false → av.wire = .ok w →
      State.set fromValue s val =
        ({ s with Raw := NewValue (Schema.attributeType s.schema).terraformType (some w) }, d)) := by
  cases val with
  | nilInterface => exact absurd rfl hnn
  | typedNil t =>
    refine ⟨fun hbad => ?_, fun e hok he => ?_, fun w hok hw => ?_⟩
    · simp [State.set, hfv, hbad]
    · simp [State.set, hfv, hok, he]
    · simp [State.set, hfv, hok, hw]
  | goValue p =>
    refine ⟨fun hbad => ?_, fun e hok he => ?_, fun w hok hw => ?_⟩
    · simp [State.set, hfv, hbad]
    · simp [State.set, hfv, hok, he]
    · simp [State.set, hfv, hok, hw]

/-- C7 witness: a successful whole-document set installs the new tree. -/
theorem C7_witness :
    State.set demoFromValueBar demoState (HostValue.goValue "x") =
      ({ demoState with
          Raw := NewValue (Schema.attributeType demoState.schema).terraformType
            (some (TfValue.str "bar")) }, []) := by
  have h := C7_set_nonnil_atomic demoFromValueBar demoState (HostValue.goValue "x")
    { wire := Except.ok (TfValue.str "bar"), tag := "StringType" } [] (by decide) rfl
  exact h.2.2 (TfValue.str "bar") rfl rfl

/-- C10: whenever the transform invoked by `SetAttribute` reports an error,
the tree the transform returned alongside the error is assigned to `Raw`
before the error diagnostic is reported, so the pre-call tree is not
restored: the resulting tree is exactly whatever the transform handed
back. -/
theorem C10_setAttribute_transform_error_keeps_returned_tree
    (transform : TransformImpl) (fromValue : FromValueFn) (s : State) (path : AttrPath)
    (val : HostValue) (attrType : AttrType) (av : AttrValue) (fvDiags : Diagnostics)
    (w t2 : TfValue) (d2 : Diagnostics) (e : String)
    (hty : Schema.attributeTypeAtPath s.schema path = .ok attrType)
    (hfv : fromValue attrType val path = (av, fvDiags))
    (hfvOk : Diagnostics.hasError fvDiags = false)
    (hw : av.wire = .ok w)
    (htr : transform s.Raw path (setAttributeTransformFn attrType path w) fvDiags = (t2, d2, some e)) :
    State.setAttributeWith transform fromValue s path val =
      ({ s with Raw := t2 },
       d2 ++ [newAttributeErrorDiagnostic path "State Write Error" (writeAttrErrorDetail e)]) := by
  simp [State.setAttributeWith, hty, hfv, hfvOk, hw, htr]

/-- C10 witness: an adversarial transform that fails while returning an
unrelated tree leaves that unrelated tree installed in `Raw`. -/
theorem C10_witness :
    State.setAttributeWith corruptTransform demoFromValueBar demoState demoPath
      (HostValue.goValue "x") =
      ({ demoState with Raw := TfValue.str "corrupted" },
       [newAttributeErrorDiagnostic demoPath "State Write Error"
         (writeAttrErrorDetail "transform failed")]) := by
  have h := C10_setAttribute_transform_error_keeps_returned_tree corruptTransform
    demoFromValueBar demoState demoPath (HostValue.goValue "x") stringAttrType
    { wire := Except.ok (TfValue.str "bar"), tag := "StringType" } []
    (TfValue.str "bar") (TfValue.str "corrupted") [] "transform failed" rfl rfl rfl rfl rfl
  simpa using h
